import Mathlib

/-!
Shallow embedding of the outbound multi-credential request orchestration
layer of `src/utils/wiza.ts` (credential pool, health tracker, failover
executor, async job resolution, parallel dispatcher), together with
theorems settling the frozen claims about it.

Modelling conventions:
* TypeScript strings are `String`; absent/`undefined` string fields are
  modelled as `""` (matching JavaScript truthiness for the `||` and
  `if (x)` patterns the source uses on them).
* `Date.now()` timestamps and durations are `Nat` milliseconds, passed
  explicitly as a `now` argument where the source reads the clock.
* The module-level mutable `apiKeyHealthMap` (a `Map` keyed by the
  credential string, iterated in insertion order) is modelled as a
  `List ApiKeyHealth` in insertion order; mutation becomes explicit
  state passing.
* `throw`/rejected promises are `Except String` carrying the thrown
  `Error` message, since the source classifies errors by substring
  tests on the message.
-/

namespace Wiza

/-- Model of JavaScript `String.prototype.includes` on character lists:
true when `sub` occurs contiguously in the second list. -/
def hasSubList (sub : List Char) : List Char → Bool
  | [] => sub.isEmpty
  | c :: rest => sub.isPrefixOf (c :: rest) || hasSubList sub rest

/-- Model of JavaScript `msg.includes(sub)`. -/
def strIncludes (s sub : String) : Bool :=
  hasSubList sub.data s.data

/-- Model of JavaScript `msg.toLowerCase()` (character-wise lowering). -/
def jsToLower (s : String) : String :=
  String.mk (s.data.map Char.toLower)

/-- Model of the JavaScript string fallback idiom `a || b` (empty string is falsy). -/
def jsOr (a b : String) : String :=
  if a == "" then b else a

instance {ε α : Type} [DecidableEq ε] [DecidableEq α] : DecidableEq (Except ε α) := fun a b =>
  match a, b with
  | .ok x, .ok y =>
    if h : x = y then .isTrue (by rw [h]) else .isFalse (by intro hc; cases hc; exact h rfl)
  | .error x, .error y =>
    if h : x = y then .isTrue (by rw [h]) else .isFalse (by intro hc; cases hc; exact h rfl)
  | .ok _, .error _ => .isFalse (by intro hc; cases hc)
  | .error _, .ok _ => .isFalse (by intro hc; cases hc)

/-- `CONCURRENCY_PER_KEY` (wiza.ts line 36, default '2'). -/
def CONCURRENCY_PER_KEY : Nat := 2

/-- `RATE_LIMIT_COOLDOWN_MS` (wiza.ts line 37, default '10000'). -/
def RATE_LIMIT_COOLDOWN_MS : Nat := 10000

/-- `HEALTH_CHECK_INTERVAL` (wiza.ts line 55): 5 minutes. -/
def HEALTH_CHECK_INTERVAL : Nat := 5 * 60 * 1000

/-- `MAX_CONSECUTIVE_FAILURES` (wiza.ts line 58). -/
def MAX_CONSECUTIVE_FAILURES : Nat := 3

/-- `interface ApiKeyHealth` (wiza.ts lines 23-30).  `credits?: number` is
initialized to `0` for every key and only ever overwritten by
`markApiKeySuccess`, so it is modelled as a plain `Nat`. -/
structure ApiKeyHealth where
  key : String
  index : Nat
  isHealthy : Bool
  lastChecked : Nat
  consecutiveFailures : Nat
  credits : Nat
deriving Repr, DecidableEq

/-- The initial health record installed for each configured key
(wiza.ts lines 41-50). -/
def initHealth (key : String) (index : Nat) : ApiKeyHealth :=
  { key := key
    index := index
    isHealthy := true
    lastChecked := 0
    consecutiveFailures := 0
    credits := 0 }

/-- `apiKeyHealthMap` right after the initialization loop over `API_KEYS`
(wiza.ts lines 41-50), as a list in insertion order. -/
def initPool (keys : List String) : List ApiKeyHealth :=
  keys.enum.map (fun p => initHealth p.2 p.1)

/-- `getHealthyApiKeys` (wiza.ts lines 61-63). -/
def getHealthyApiKeys (pool : List ApiKeyHealth) : List ApiKeyHealth :=
  pool.filter (fun h => h.isHealthy)

/-- The per-entry update performed by `markApiKeyFailed` (wiza.ts lines 66-75):
increment `consecutiveFailures`; when the incremented count reaches
`MAX_CONSECUTIVE_FAILURES`, flip `isHealthy` to false. -/
def failEntry (h : ApiKeyHealth) : ApiKeyHealth :=
  { h with
    consecutiveFailures := h.consecutiveFailures + 1
    isHealthy :=
      if MAX_CONSECUTIVE_FAILURES ≤ h.consecutiveFailures + 1 then false else h.isHealthy }

/-- `markApiKeyFailed` (wiza.ts lines 66-75), lifted to the whole map. -/
def markApiKeyFailed (pool : List ApiKeyHealth) (apiKey : String) : List ApiKeyHealth :=
  pool.map (fun h => if h.key == apiKey then failEntry h else h)

/-- The per-entry update performed by `markApiKeySuccess` (wiza.ts lines
78-88): zero the failure counter, force healthy, stamp
`lastChecked := Date.now()`, and take the credit hint when supplied. -/
def successEntry (now : Nat) (credits : Option Nat) (h : ApiKeyHealth) : ApiKeyHealth :=
  { h with
    consecutiveFailures := 0
    isHealthy := true
    lastChecked := now
    credits := credits.getD h.credits }

/-- `markApiKeySuccess` (wiza.ts lines 78-88), lifted to the whole map. -/
def markApiKeySuccess (pool : List ApiKeyHealth) (apiKey : String) (now : Nat)
    (credits : Option Nat) : List ApiKeyHealth :=
  pool.map (fun h => if h.key == apiKey then successEntry now credits h else h)

/-- `apiKeyHealthMap.get(apiKey)` on the list model: the entry for a key. -/
def findKey (pool : List ApiKeyHealth) (k : String) : Option ApiKeyHealth :=
  pool.find? (fun h => h.key == k)

/-- The health-map invariant of claim C10: a credential is never unhealthy
with fewer than `MAX_CONSECUTIVE_FAILURES` recorded consecutive failures. -/
def healthInvariant (pool : List ApiKeyHealth) : Prop :=
  ∀ h ∈ pool, h.isHealthy = false → MAX_CONSECUTIVE_FAILURES ≤ h.consecutiveFailures

/-- `shouldRecheckApiKey` (wiza.ts lines 91-94). -/
def shouldRecheckApiKey (now : Nat) (h : ApiKeyHealth) : Bool :=
  !h.isHealthy && decide (HEALTH_CHECK_INTERVAL < now - h.lastChecked)

/-- The re-probation pass at the top of `getBestApiKey` (wiza.ts lines 98-105):
any key due for a recheck is flipped back to healthy with a zeroed counter. -/
def reprobate (now : Nat) (pool : List ApiKeyHealth) : List ApiKeyHealth :=
  pool.map (fun h =>
    if shouldRecheckApiKey now h then
      { h with isHealthy := true, consecutiveFailures := 0 }
    else h)

/-- Stable insertion used to model JavaScript `Array.prototype.sort`
(which is a stable sort): `le x y = true` keeps `x` in front of `y`. -/
def insertBy (le : ApiKeyHealth → ApiKeyHealth → Bool) (x : ApiKeyHealth) :
    List ApiKeyHealth → List ApiKeyHealth
  | [] => [x]
  | y :: ys => if le x y then x :: y :: ys else y :: insertBy le x ys

/-- Stable sort modelling JavaScript `Array.prototype.sort` with a
comparator: any stable reordering consistent with the comparator. -/
def sortBy (le : ApiKeyHealth → ApiKeyHealth → Bool) : List ApiKeyHealth → List ApiKeyHealth
  | [] => []
  | x :: xs => insertBy le x (sortBy le xs)

/-- Comparator for `keysWithCredits.sort((a, b) => (b.credits || 0) - (a.credits || 0))`
(wiza.ts line 117): descending credits. -/
def byCreditsDesc (a b : ApiKeyHealth) : Bool :=
  decide (b.credits ≤ a.credits)

/-- Comparator for `healthyKeys.sort((a, b) => a.lastChecked - b.lastChecked)`
(wiza.ts line 123): least recently used first. -/
def byLastCheckedAsc (a b : ApiKeyHealth) : Bool :=
  decide (a.lastChecked ≤ b.lastChecked)

/-- `getBestApiKey` (wiza.ts lines 97-125).  Returns the mutated map
(after the re-probation pass) together with the selected key, `none`
standing for the source's `null`.  Note the source consults only the
health map: the `keyCooldownUntil` map plays no part here. -/
def getBestApiKey (pool : List ApiKeyHealth) (now : Nat) :
    List ApiKeyHealth × Option String :=
  let pool2 := reprobate now pool
  let healthyKeys := getHealthyApiKeys pool2
  if healthyKeys.isEmpty then
    (pool2, none)
  else
    let keysWithCredits := healthyKeys.filter (fun k => decide (0 < k.credits))
    if !keysWithCredits.isEmpty then
      (pool2, (sortBy byCreditsDesc keysWithCredits).head?.map (fun h => h.key))
    else
      (pool2, (sortBy byLastCheckedAsc healthyKeys).head?.map (fun h => h.key))

/-- Association-list lookup modelling `Map.prototype.get`. -/
def getAssoc {α : Type} (m : List (String × α)) (k : String) : Option α :=
  (m.find? (fun p => p.1 == k)).map (fun p => p.2)

/-- Association-list update modelling `Map.prototype.set` (replace the
existing entry in place, else append, preserving insertion order). -/
def setAssoc {α : Type} (m : List (String × α)) (k : String) (v : α) : List (String × α) :=
  if m.any (fun p => p.1 == k) then
    m.map (fun p => if p.1 == k then (k, v) else p)
  else
    m ++ [(k, v)]

/-- `keyCooldownUntil.set(key, Date.now() + RATE_LIMIT_COOLDOWN_MS)`
(wiza.ts line 230), generalized to an arbitrary duration `d` as in the
spec's `setCooldown(c, d)`: record `cooldownUntil := now + d` for the key,
touching nothing else (in particular not the health map). -/
def setCooldown (cooldowns : List (String × Nat)) (apiKey : String) (now d : Nat) :
    List (String × Nat) :=
  setAssoc cooldowns apiKey (now + d)

example : strIncludes "API key out of credits" "credits" = true := by decide
example : strIncludes "API key out of credits" "quota" = false := by decide
example : getHealthyApiKeys (initPool ["A", "B"]) = initPool ["A", "B"] := by decide
example : (getBestApiKey (initPool ["A"]) 1000).2 = some "A" := by decide

/-! ## Failover executor (wiza.ts lines 128-176) -/

/-- The substring classification applied to a failed attempt's message at
wiza.ts lines 152-155 (credits / quota / limit / 402). -/
def msgHasQuota (msg : String) : Bool :=
  strIncludes msg "credits" || strIncludes msg "quota" ||
    strIncludes msg "limit" || strIncludes msg "402"

/-- The account-level billing test at wiza.ts line 162. -/
def msgHasBilling (msg : String) : Bool :=
  strIncludes msg "Wiza account has a billing issue"

/-- The network-failure test at wiza.ts lines 168-169. -/
def msgHasNetwork (msg : String) : Bool :=
  strIncludes msg "fetch failed" || strIncludes msg "ECONNREFUSED"

/-- The `for (const keyHealth of healthyKeys)` loop body of
`executeWithFailover` (wiza.ts lines 140-175), iterating the snapshot of
healthy keys while threading the mutated health map and the `lastError`
variable.  On success: `markApiKeySuccess` and return.  On failure:
`markApiKeyFailed`, a second `markApiKeyFailed` when the message matches
the credits/quota test, then an immediate abort for billing-account or
network errors, else continue with the next key.  After the loop:
`throw lastError || new Error(...)`. -/
def ewfGo {T : Type} (op : String → Except String T) (operationName : String) :
    List ApiKeyHealth → List ApiKeyHealth → Nat → Option String →
      List ApiKeyHealth × Except String T
  | [], pool, _, lastError =>
    (pool, .error (lastError.getD ("All API keys failed for " ++ operationName)))
  | kh :: rest, pool, now, _lastError =>
    match op kh.key with
    | .ok v => (markApiKeySuccess pool kh.key now none, .ok v)
    | .error msg =>
      let pool1 := markApiKeyFailed pool kh.key
      let pool2 := if msgHasQuota msg then markApiKeyFailed pool1 kh.key else pool1
      if msgHasBilling msg then
        (pool2, .error "Wiza account has a billing issue. Please check your Wiza account at https://wiza.co")
      else if msgHasNetwork msg then
        (pool2, .error "Network error - please check your internet connection")
      else
        ewfGo op operationName rest pool2 now (some msg)

/-- `executeWithFailover` (wiza.ts lines 128-176): snapshot the healthy
keys, fail fast when none, else run the failover loop. -/
def executeWithFailover {T : Type} (op : String → Except String T) (operationName : String)
    (pool : List ApiKeyHealth) (now : Nat) : List ApiKeyHealth × Except String T :=
  let healthyKeys := getHealthyApiKeys pool
  if healthyKeys.isEmpty then
    (pool, .error "No healthy API keys available")
  else
    ewfGo op operationName healthyKeys pool now none

/-! ## Provider payload and result normalization (single-item reveal) -/

/-- `interface Contact` from `types/contact.ts` (optional string fields
modelled as `""` when absent).  The randomly generated `id` and the
wall-clock `extractedAt` stamp are nondeterministic fresh values carrying
no information and are left out of the model. -/
structure Contact where
  linkedinUrl : String
  name : String
  email : String
  phone : String
  emails : List String
  phones : List String
  jobTitle : String
  company : String
  location : String
deriving Repr, DecidableEq

/-- `interface ExtractionResult` from `types/contact.ts`. -/
structure ExtractionResult where
  success : Bool
  contact : Option Contact := none
  error : Option String := none
deriving Repr, DecidableEq

/-- An element of the provider's `emails`/`phones` arrays, which the
source probes with `typeof item === 'string' ? item : item?.field`:
either a bare string or an object carrying the relevant field
(`""` for an object whose field is absent). -/
inductive JsonItem where
  | str (s : String)
  | obj (v : String)
deriving Repr, DecidableEq

/-- `typeof item === 'string' ? item : item?.email` (and the analogous
phone form `typeof item === 'string' ? item : item?.number`). -/
def JsonItem.strOrField : JsonItem → String
  | .str s => s
  | .obj v => v

/-- Direct field access `item?.number` with no string case (wiza.ts
line 842 probes `.number` only, so a bare string yields `undefined`). -/
def JsonItem.fieldOnly : JsonItem → String
  | .str _ => ""
  | .obj v => v

/-- The `statusData.data` payload of a reveal status poll: job status
fields plus the contact fields the normalizers read, all optional strings
modelled as `""` when absent. -/
structure RevealStatusData where
  status : String := ""
  is_complete : Bool := false
  fail_error : String := ""
  error : String := ""
  full_name : String := ""
  name : String := ""
  title : String := ""
  job_title : String := ""
  headline : String := ""
  position : String := ""
  company : String := ""
  job_company_name : String := ""
  organization : String := ""
  location : String := ""
  email : String := ""
  work_email : String := ""
  personal_email : String := ""
  likely_email : String := ""
  emails : List JsonItem := []
  phone_number : String := ""
  phone : String := ""
  mobile_phone : String := ""
  work_phone : String := ""
  personal_phone : String := ""
  phones : List JsonItem := []
deriving Repr, DecidableEq

/-- The dedup-append step `if (v && !list.includes(v)) list.push(v)` used
by every email/phone accumulation loop. -/
def pushUnique (acc : List String) (v : String) : List String :=
  if v != "" && !acc.contains v then acc ++ [v] else acc

/-- Result normalization of the single-item reveal path
(wiza.ts lines 778-851): flatten the alternate field names into one
canonical record with a primary value and a deduplicated ordered list. -/
def normalizeSingleContact (linkedinUrl : String) (c : RevealStatusData) : Contact :=
  let emails0 := [c.email, c.work_email, c.personal_email, c.likely_email].foldl pushUnique []
  let emails := c.emails.foldl (fun acc it => pushUnique acc it.strOrField) emails0
  let phones0 :=
    [c.phone_number, c.phone, c.mobile_phone, c.work_phone, c.personal_phone,
      (match c.phones with | [] => "" | it :: _ => it.fieldOnly)].foldl pushUnique []
  let phones := c.phones.foldl (fun acc it => pushUnique acc it.fieldOnly) phones0
  { linkedinUrl := linkedinUrl
    name := jsOr (jsOr c.full_name c.name) "Unknown"
    email := match emails with | [] => c.email | e :: _ => e
    phone := match phones with | [] => "" | p :: _ => p
    emails := emails
    phones := phones
    jobTitle := jsOr c.title (jsOr c.job_title (jsOr c.headline (jsOr c.position "")))
    company := jsOr c.company (jsOr c.job_company_name (jsOr c.organization ""))
    location := c.location }

/-- Terminal handling of a completed reveal in the single-item path
(wiza.ts lines 733-866, for `is_complete === true`): a `failed` status is
forgiven when `fail_error` is `billing_issue` and contact data is present;
specific failure reasons are propagated as thrown errors; any surviving
case falls through to normalization and `success: true`. -/
def handleRevealTerminal (linkedinUrl : String) (d : RevealStatusData) :
    Except String ExtractionResult :=
  if d.status == "failed" then
    let failError := jsOr d.fail_error "Unknown error"
    let hasContactData :=
      d.email != "" || d.phone_number != "" || d.mobile_phone != "" ||
        d.name != "" || d.full_name != ""
    if failError == "billing_issue" && hasContactData then
      .ok { success := true, contact := some (normalizeSingleContact linkedinUrl d) }
    else if failError == "profile_not_found" then
      .error "LinkedIn profile not found. Please check the URL is correct."
    else if failError == "profile_private" then
      .error "LinkedIn profile is private and cannot be accessed."
    else if failError == "billing_issue" && !hasContactData then
      .error "Wiza API limitation: This profile cannot be extracted with your current Wiza plan. Try a different profile or upgrade your Wiza account."
    else if !hasContactData then
      .error ("Failed to extract contact: " ++ failError)
    else
      .ok { success := true, contact := some (normalizeSingleContact linkedinUrl d) }
  else
    .ok { success := true, contact := some (normalizeSingleContact linkedinUrl d) }

/-- What the provider does for one attempt of the single-item reveal
operation with a given key: the create call fails with an HTTP status and
body (substring-test results precomputed), or the poll loop eventually
observes a payload, or the 3-minute budget elapses. -/
inductive ProviderBehavior where
  | createError (status : Nat) (bodyHasCredits : Bool) (bodyHasQuota : Bool)
      (parsedMessage : String)
  | terminal (d : RevealStatusData)
  | timeout
deriving Repr

/-- The per-key operation passed to `executeWithFailover` by
`extractContactWithWiza` (wiza.ts lines 639-882): classify a failed
create call (402/credits/quota, 401, 403, else the parsed body message);
on a poll observing `is_complete === true` run the terminal handling;
otherwise time out after the 3-minute budget. -/
def singleRevealOp (provider : String → ProviderBehavior) (linkedinUrl : String)
    (apiKey : String) : Except String ExtractionResult :=
  match provider apiKey with
  | .createError status bodyHasCredits bodyHasQuota parsedMessage =>
    if status == 402 || bodyHasCredits || bodyHasQuota then
      .error "API key out of credits"
    else if status == 401 then
      .error "Invalid API key"
    else if status == 403 then
      .error "Access forbidden - check API permissions"
    else
      .error parsedMessage
  | .terminal d =>
    if d.is_complete then
      handleRevealTerminal linkedinUrl d
    else
      .error "Extraction timed out after 3 minutes. The profile might be private or unavailable."
  | .timeout =>
    .error "Extraction timed out after 3 minutes. The profile might be private or unavailable."

/-- `extractContactWithWiza` (wiza.ts lines 631-883): the single-item
extraction is exactly the failover executor running the reveal operation. -/
def extractContactWithWiza (provider : String → ProviderBehavior) (linkedinUrl : String)
    (pool : List ApiKeyHealth) (now : Nat) :
    List ApiKeyHealth × Except String ExtractionResult :=
  executeWithFailover (singleRevealOp provider linkedinUrl) "extractContactWithWiza" pool now

/-! ## Parallel dispatcher (wiza.ts lines 179-270)

The source spawns `max(1, CONCURRENCY_PER_KEY)` cooperative workers per
healthy key, all multiplexed over non-blocking I/O and sharing the URL
queue, the result map, the health map, the cooldown map and the progress
counter.  The model makes that shared state explicit as `ParState` and a
per-iteration `workerStep`; a whole run is one interleaving of the
cooperative schedule in which each worker runs to completion before the
next starts (workers only interact through the shared state, and every
claim below concerns either a single worker iteration or a
single-credential run, where this is the schedule). -/

/-- The shared mutable state of one `executeInParallel` call:
`urlQueue`, `results`, the health map, `keyCooldownUntil`,
`completedCount`/`totalCount`, the `onProgress` invocations observed so
far, and the clock. -/
structure ParState (T : Type) where
  urlQueue : List String
  results : List (String × T)
  pool : List ApiKeyHealth
  cooldowns : List (String × Nat)
  completedCount : Nat
  totalCount : Nat
  progressEvents : List (Nat × Nat)
  now : Nat
deriving Repr

/-- One iteration of the `processWithKey` worker loop (wiza.ts lines
200-258) for the worker bound to `apiKey`.  `none` models `break` (the
worker resolves); `some s2` is the state after one pass of the
`while (true)` body: sleep through an active cooldown in capped slices;
dequeue (breaking on an empty queue, `if (!url) break`); on success
record the result, mark the key successful and advance progress; on
failure follow the classification cascade of lines 229-256. -/
def workerStep {T : Type} (op : String → String → Except String T) (apiKey : String)
    (s : ParState T) : Option (ParState T) :=
  let cooldownUntil := (getAssoc s.cooldowns apiKey).getD 0
  if s.now < cooldownUntil then
    some { s with now := s.now + min 1000 (cooldownUntil - s.now) }
  else
    match s.urlQueue with
    | [] => none
    | url :: rest =>
      if url == "" then none
      else
        match op url apiKey with
        | .ok result =>
          some { s with
            urlQueue := rest
            results := setAssoc s.results url result
            pool := markApiKeySuccess s.pool apiKey s.now none
            completedCount := s.completedCount + 1
            progressEvents := s.progressEvents ++ [(s.completedCount + 1, s.totalCount)] }
        | .error msg =>
          if strIncludes msg "429" || strIncludes (jsToLower msg) "rate limit" then
            some { s with
              urlQueue := rest ++ [url]
              cooldowns := setAssoc s.cooldowns apiKey (s.now + RATE_LIMIT_COOLDOWN_MS) }
          else
            let isCreditsError := strIncludes msg "out of credits" || strIncludes msg "402"
            let pool1 := if isCreditsError then markApiKeyFailed s.pool apiKey else s.pool
            if isCreditsError && !(getHealthyApiKeys pool1).isEmpty then
              some { s with pool := pool1, urlQueue := rest ++ [url] }
            else if !(getHealthyApiKeys pool1).isEmpty then
              some { s with pool := pool1, urlQueue := rest ++ [url] }
            else
              some { s with
                pool := pool1
                urlQueue := rest
                completedCount := s.completedCount + 1
                progressEvents := s.progressEvents ++ [(s.completedCount + 1, s.totalCount)] }

/-- Run one worker until it breaks (or the fuel bound is reached: the
source loop has no iteration bound of its own). -/
def runWorker {T : Type} (op : String → String → Except String T) (apiKey : String) :
    Nat → ParState T → ParState T
  | 0, s => s
  | fuel + 1, s =>
    match workerStep op apiKey s with
    | none => s
    | some s2 => runWorker op apiKey fuel s2

/-- `Math.max(1, CONCURRENCY_PER_KEY)` (wiza.ts line 198). -/
def spawnWorkers : Nat := max 1 CONCURRENCY_PER_KEY

/-- Run the `spawnWorkers` workers of one key, one after the other. -/
def runWorkersForKey {T : Type} (op : String → String → Except String T) (apiKey : String)
    (fuel : Nat) : Nat → ParState T → ParState T
  | 0, s => s
  | n + 1, s => runWorkersForKey op apiKey fuel n (runWorker op apiKey fuel s)

/-- `executeInParallel` (wiza.ts lines 179-270) under the sequential
interleaving described above: fail fast when no key is healthy, else run
the workers of each initially-healthy key over the shared state and
return the final state (whose `results` field is the returned map). -/
def executeInParallel {T : Type} (fuel : Nat) (linkedinUrls : List String)
    (op : String → String → Except String T) (pool : List ApiKeyHealth)
    (cooldowns : List (String × Nat)) (now : Nat) : Except String (ParState T) :=
  let healthyKeys := getHealthyApiKeys pool
  if healthyKeys.isEmpty then
    .error "No healthy API keys available"
  else
    let s0 : ParState T :=
      { urlQueue := linkedinUrls
        results := []
        pool := pool
        cooldowns := cooldowns
        completedCount := 0
        totalCount := linkedinUrls.length
        progressEvents := []
        now := now }
    .ok (healthyKeys.foldl (fun s kh => runWorkersForKey op kh.key fuel spawnWorkers s) s0)

/-! ## Bulk extraction (wiza.ts lines 1782-1995) -/

/-- What the provider does for one bulk reveal attempt on a given URL
with a given key (wiza.ts lines 1823-1965): the create call fails with an
HTTP status and body, or a poll observes a payload, or the budget
elapses. -/
inductive BulkBehavior where
  | createError (status : Nat) (bodyHasCredits : Bool) (bodyHasQuota : Bool)
  | terminal (d : RevealStatusData)
  | timeout
deriving Repr

/-- Result normalization of the bulk path (wiza.ts lines 1876-1946).  It
differs from the single-item path: the primary email starts from `''`
rather than `contact.email`, the phone fields omit `personal_phone` and
`phones[0].number`, and the phones array is probed with the string/object
test. -/
def normalizeBulkContact (linkedinUrl : String) (c : RevealStatusData) : Contact :=
  let emails0 := [c.email, c.work_email, c.personal_email, c.likely_email].foldl pushUnique []
  let emails := c.emails.foldl (fun acc it => pushUnique acc it.strOrField) emails0
  let phones0 := [c.phone_number, c.phone, c.mobile_phone, c.work_phone].foldl pushUnique []
  let phones := c.phones.foldl (fun acc it => pushUnique acc it.strOrField) phones0
  { linkedinUrl := linkedinUrl
    name := jsOr (jsOr c.full_name c.name) "Unknown"
    email := match emails with | [] => "" | e :: _ => e
    phone := match phones with | [] => "" | p :: _ => p
    emails := emails
    phones := phones
    jobTitle := jsOr c.title (jsOr c.job_title (jsOr c.headline (jsOr c.position "")))
    company := jsOr c.company (jsOr c.job_company_name (jsOr c.organization ""))
    location := c.location }

/-- The per-item operation passed to `executeInParallel` by
`extractContactsInParallel` (wiza.ts lines 1808-1971).  A failed create
call throws (lines 1832-1838); a poll observing `status === 'finished'`
returns a success record unless `contact.name` is missing; a poll
observing `status === 'failed'` returns a failure record built from
`statusData.data.error` — with no inspection of the payload data; any
other outcome times out into a failure record (lines 1967-1970). -/
def bulkRevealOp (provider : String → String → BulkBehavior) (linkedinUrl : String)
    (apiKey : String) : Except String ExtractionResult :=
  match provider linkedinUrl apiKey with
  | .createError status bodyHasCredits bodyHasQuota =>
    if bodyHasCredits || bodyHasQuota then
      .error "API key out of credits"
    else
      .error ("Failed to create reveal: " ++ toString status)
  | .terminal d =>
    if d.status == "finished" then
      if d.name == "" then
        .ok { success := false, error := some "No contact data in response" }
      else
        .ok { success := true, contact := some (normalizeBulkContact linkedinUrl d) }
    else if d.status == "failed" then
      .ok { success := false, error := some ("Reveal failed: " ++ jsOr d.error "Unknown error") }
    else
      .ok { success := false, error := some "Extraction timed out" }
  | .timeout =>
    .ok { success := false, error := some "Extraction timed out" }

/-- The URL shape test of wiza.ts line 1794: `url && url.includes('linkedin.com/in/')`. -/
def isValidBulkUrl (url : String) : Bool :=
  url != "" && strIncludes url "linkedin.com/in/"

/-- `extractContactsInParallel` (wiza.ts lines 1782-1995): validate the
URLs, dispatch the valid ones through `executeInParallel` with the bulk
reveal operation, then append an immediate-failure entry for each invalid
URL.  Returns the result map together with the final dispatcher state
(the latter exposes the progress counter the source reports through
`onProgress`). -/
def extractContactsInParallel (fuel : Nat) (provider : String → String → BulkBehavior)
    (linkedinUrls : List String) (pool : List ApiKeyHealth)
    (cooldowns : List (String × Nat)) (now : Nat) :
    Except String (List (String × ExtractionResult) × ParState ExtractionResult) :=
  let emptyState : ParState ExtractionResult :=
    { urlQueue := []
      results := []
      pool := pool
      cooldowns := cooldowns
      completedCount := 0
      totalCount := 0
      progressEvents := []
      now := now }
  if linkedinUrls.length == 0 then
    .ok ([], emptyState)
  else
    let validUrls := linkedinUrls.filter isValidBulkUrl
    let invalidUrls := linkedinUrls.filter (fun url => !isValidBulkUrl url)
    if validUrls.isEmpty then
      .ok ([], emptyState)
    else
      match executeInParallel fuel validUrls (bulkRevealOp provider) pool cooldowns now with
      | .error e => .error e
      | .ok st =>
        let extractionResults := invalidUrls.foldl
          (fun m url =>
            setAssoc m url { success := false, error := some "Invalid LinkedIn URL format" })
          st.results
        .ok (extractionResults, st)

/-! ## Concrete scenario inputs used by counterexamples and witnesses -/

/-- A provider whose create-job call always answers HTTP 402 with a body
mentioning credits. -/
def alwaysOutOfCredits : String → String → BulkBehavior :=
  fun _ _ => .createError 402 true false

/-- A terminal reveal payload flagged `failed` with reason `billing_issue`
while carrying a populated `phone_number` (and a name): extractable data
despite the failure flag. -/
def billingIssueData : RevealStatusData :=
  { status := "failed", is_complete := true, fail_error := "billing_issue",
    error := "billing_issue", phone_number := "123", name := "Bob" }

/-- A provider whose jobs always end in `billingIssueData`. -/
def billingIssueWithPhone : String → String → BulkBehavior :=
  fun _ _ => .terminal billingIssueData

/-- The single-item provider whose jobs always end in `billingIssueData`. -/
def billingIssueSingle : String → ProviderBehavior :=
  fun _ => .terminal billingIssueData

/-- The provider of claim C3's scenario: credential "A" always gets
HTTP 402 ("quota") on job creation, credential "B" succeeds immediately
with a populated name and email. -/
def quotaThenSuccess : String → ProviderBehavior := fun k =>
  if k == "A" then .createError 402 false false ""
  else .terminal { status := "finished", is_complete := true, name := "X",
                   email := "x@example.com" }

/-- A worker operation that always fails with a rate-limit (HTTP 429) message. -/
def rlOp : String → String → Except String Unit := fun _ _ => .error "429"

/-- A worker operation that always fails with the out-of-credits message. -/
def creditsOp : String → String → Except String Unit :=
  fun _ _ => .error "API key out of credits"

/-- A concrete dispatcher state: one healthy key "A", one queued URL. -/
def wsState : ParState Unit :=
  { urlQueue := ["u"], results := [], pool := initPool ["A"], cooldowns := [],
    completedCount := 0, totalCount := 1, progressEvents := [], now := 50 }

/-- A pool whose single key "A" is one failure away from the unhealthy
threshold. -/
def nearDeadPool : List ApiKeyHealth :=
  [{ key := "A", index := 0, isHealthy := true, lastChecked := 0,
     consecutiveFailures := 2, credits := 0 }]

/-- A concrete dispatcher state over `nearDeadPool` with one queued URL. -/
def exhaustedState : ParState Unit :=
  { urlQueue := ["u"], results := [], pool := nearDeadPool, cooldowns := [],
    completedCount := 0, totalCount := 1, progressEvents := [], now := 50 }

/-- A concrete dispatcher state whose key "A" is inside an active cooldown
window (until 5000, clock at 1000). -/
def cdState : ParState Unit :=
  { urlQueue := ["u"], results := [], pool := initPool ["A"],
    cooldowns := [("A", 5000)], completedCount := 0, totalCount := 1,
    progressEvents := [], now := 1000 }

/-- A concrete unhealthy entry whose last check is far in the past. -/
def staleEntry : ApiKeyHealth :=
  { key := "A", index := 0, isHealthy := false, lastChecked := 0,
    consecutiveFailures := 3, credits := 0 }

/-- A pool holding only `staleEntry`. -/
def staleUnhealthyPool : List ApiKeyHealth := [staleEntry]

/-- Whether a credential's cooldown window is still open at `now`
(`keyCooldownUntil.get(key) || 0` compared against the clock, as in
wiza.ts lines 203-205). -/
def cooldownActive (cooldowns : List (String × Nat)) (k : String) (now : Nat) : Bool :=
  decide (now < (getAssoc cooldowns k).getD 0)

/-- Modelled from the spec's words, for comparison against the source's
`getHealthyApiKeys`: the spec describes `healthyCandidates()` as
re-probating stale unhealthy credentials first and then returning exactly
the credentials with `isHealthy == true` and no active cooldown. -/
def healthyCandidatesSpec (pool : List ApiKeyHealth) (cooldowns : List (String × Nat))
    (now : Nat) : List ApiKeyHealth :=
  (reprobate now pool).filter (fun h => h.isHealthy && !cooldownActive cooldowns h.key now)

/-! ## Helper lemmas -/

theorem getAssoc_cons {α : Type} (q : String × α) (t : List (String × α)) (k : String) :
    getAssoc (q :: t) k = if q.1 == k then some q.2 else getAssoc t k := by
  simp only [getAssoc, List.find?_cons]
  cases hq : q.1 == k <;> simp [hq]

theorem getAssoc_map_set {α : Type} (m : List (String × α)) (k : String) (v : α)
    (hany : m.any (fun p => p.1 == k) = true) :
    getAssoc (m.map (fun p => if p.1 == k then (k, v) else p)) k = some v := by
  induction m with
  | nil => simp at hany
  | cons p t ih =>
    cases hp : p.1 == k with
    | true =>
      have hpt : (p.1 == k) = true := hp
      rw [List.map_cons, if_pos hpt, getAssoc_cons]
      simp
    | false =>
      have hnp : ¬ (p.1 == k) = true := by simp [hp]
      have hany2 : t.any (fun p => p.1 == k) = true := by
        simpa [List.any_cons, hp] using hany
      rw [List.map_cons, if_neg hnp, getAssoc_cons, if_neg hnp]
      exact ih hany2

theorem getAssoc_append_single {α : Type} (m : List (String × α)) (k : String) (v : α)
    (hnone : m.any (fun p => p.1 == k) = false) :
    getAssoc (m ++ [(k, v)]) k = some v := by
  induction m with
  | nil => simp [getAssoc_cons]
  | cons p t ih =>
    have hp : (p.1 == k) = false := by
      cases hpk : p.1 == k
      · rfl
      · simp [List.any_cons, hpk] at hnone
    have hnone2 : t.any (fun p => p.1 == k) = false := by
      simpa [List.any_cons, hp] using hnone
    simp only [List.cons_append, getAssoc_cons, hp]
    simpa using ih hnone2

theorem getAssoc_setAssoc {α : Type} (m : List (String × α)) (k : String) (v : α) :
    getAssoc (setAssoc m k v) k = some v := by
  unfold setAssoc
  cases hany : m.any (fun p => p.1 == k) with
  | true =>
    rw [if_pos rfl]
    exact getAssoc_map_set m k v hany
  | false =>
    rw [if_neg (by simp)]
    exact getAssoc_append_single m k v hany

theorem mem_insertBy (le : ApiKeyHealth → ApiKeyHealth → Bool) (x y : ApiKeyHealth)
    (l : List ApiKeyHealth) : y ∈ insertBy le x l ↔ y = x ∨ y ∈ l := by
  induction l with
  | nil => simp [insertBy]
  | cons a t ih =>
    simp only [insertBy]
    split
    · simp [List.mem_cons]
    · simp only [List.mem_cons, ih]
      tauto

theorem mem_sortBy (le : ApiKeyHealth → ApiKeyHealth → Bool) (y : ApiKeyHealth)
    (l : List ApiKeyHealth) : y ∈ sortBy le l ↔ y ∈ l := by
  induction l with
  | nil => simp [sortBy]
  | cons a t ih =>
    simp only [sortBy, mem_insertBy, ih, List.mem_cons]

theorem length_insertBy (le : ApiKeyHealth → ApiKeyHealth → Bool) (x : ApiKeyHealth)
    (l : List ApiKeyHealth) : (insertBy le x l).length = l.length + 1 := by
  induction l with
  | nil => rfl
  | cons a t ih =>
    simp only [insertBy]
    split
    · simp
    · simp [ih]

theorem length_sortBy (le : ApiKeyHealth → ApiKeyHealth → Bool) (l : List ApiKeyHealth) :
    (sortBy le l).length = l.length := by
  induction l with
  | nil => rfl
  | cons a t ih => simp [sortBy, length_insertBy, ih]

theorem pairwise_insertBy (le : ApiKeyHealth → ApiKeyHealth → Bool)
    (htot : ∀ a b, le a b = true ∨ le b a = true)
    (htrans : ∀ a b c, le a b = true → le b c = true → le a c = true)
    (x : ApiKeyHealth) (l : List ApiKeyHealth)
    (hl : l.Pairwise (fun a b => le a b = true)) :
    (insertBy le x l).Pairwise (fun a b => le a b = true) := by
  induction l with
  | nil => simp [insertBy]
  | cons a t ih =>
    rcases List.pairwise_cons.mp hl with ⟨ha, ht⟩
    simp only [insertBy]
    split
    · rename_i hxa
      refine List.pairwise_cons.mpr ⟨?_, hl⟩
      intro b hb
      rcases List.mem_cons.mp hb with rfl | hbt
      · exact hxa
      · exact htrans x a b hxa (ha b hbt)
    · rename_i hxa
      have hax : le a x = true := by
        rcases htot x a with h | h
        · exact absurd h hxa
        · exact h
      refine List.pairwise_cons.mpr ⟨?_, ih ht⟩
      intro b hb
      rcases (mem_insertBy le x b t).mp hb with rfl | hbt
      · exact hax
      · exact ha b hbt

theorem pairwise_sortBy (le : ApiKeyHealth → ApiKeyHealth → Bool)
    (htot : ∀ a b, le a b = true ∨ le b a = true)
    (htrans : ∀ a b c, le a b = true → le b c = true → le a c = true)
    (l : List ApiKeyHealth) :
    (sortBy le l).Pairwise (fun a b => le a b = true) := by
  induction l with
  | nil => simp [sortBy]
  | cons a t ih => exact pairwise_insertBy le htot htrans a (sortBy le t) ih

theorem head_rel_sortBy (le : ApiKeyHealth → ApiKeyHealth → Bool)
    (htot : ∀ a b, le a b = true ∨ le b a = true)
    (htrans : ∀ a b c, le a b = true → le b c = true → le a c = true)
    (l : List ApiKeyHealth) (x h : ApiKeyHealth)
    (hhead : (sortBy le l).head? = some h) (hx : x ∈ l) : le h x = true := by
  cases hsl : sortBy le l with
  | nil => rw [hsl] at hhead; cases hhead
  | cons h0 t0 =>
    rw [hsl] at hhead
    injection hhead with hh
    subst hh
    have hx2 : x ∈ h0 :: t0 := by
      rw [← hsl]
      exact (mem_sortBy le x l).mpr hx
    rcases List.mem_cons.mp hx2 with rfl | hxt
    · rcases htot x x with hr | hr <;> exact hr
    · have hp := pairwise_sortBy le htot htrans l
      rw [hsl] at hp
      exact (List.pairwise_cons.mp hp).1 x hxt

theorem head?_mem (l : List ApiKeyHealth) (x : ApiKeyHealth) (h : l.head? = some x) :
    x ∈ l := by
  cases l with
  | nil => cases h
  | cons a t =>
    injection h with h
    subst h
    exact List.mem_cons_self a t

theorem sortBy_ne_nil (le : ApiKeyHealth → ApiKeyHealth → Bool) (l : List ApiKeyHealth)
    (h : l ≠ []) : sortBy le l ≠ [] := by
  intro hc
  have hlen := length_sortBy le l
  rw [hc] at hlen
  simp only [List.length_nil] at hlen
  exact h (List.length_eq_zero.mp hlen.symm)

theorem byCreditsDesc_total (a b : ApiKeyHealth) :
    byCreditsDesc a b = true ∨ byCreditsDesc b a = true := by
  simp only [byCreditsDesc, decide_eq_true_eq]
  exact Nat.le_total b.credits a.credits

theorem byCreditsDesc_trans (a b c : ApiKeyHealth) (h1 : byCreditsDesc a b = true)
    (h2 : byCreditsDesc b c = true) : byCreditsDesc a c = true := by
  simp only [byCreditsDesc, decide_eq_true_eq] at *
  omega

theorem byLastCheckedAsc_total (a b : ApiKeyHealth) :
    byLastCheckedAsc a b = true ∨ byLastCheckedAsc b a = true := by
  simp only [byLastCheckedAsc, decide_eq_true_eq]
  exact Nat.le_total a.lastChecked b.lastChecked

theorem byLastCheckedAsc_trans (a b c : ApiKeyHealth) (h1 : byLastCheckedAsc a b = true)
    (h2 : byLastCheckedAsc b c = true) : byLastCheckedAsc a c = true := by
  simp only [byLastCheckedAsc, decide_eq_true_eq] at *
  omega

theorem getBestApiKey_eq (pool : List ApiKeyHealth) (now : Nat) :
    getBestApiKey pool now =
      (reprobate now pool,
        if (getHealthyApiKeys (reprobate now pool)).isEmpty then none
        else if !((getHealthyApiKeys (reprobate now pool)).filter
            (fun k => decide (0 < k.credits))).isEmpty then
          (sortBy byCreditsDesc ((getHealthyApiKeys (reprobate now pool)).filter
            (fun k => decide (0 < k.credits)))).head?.map (fun h => h.key)
        else
          (sortBy byLastCheckedAsc (getHealthyApiKeys (reprobate now pool))).head?.map
            (fun h => h.key)) := by
  simp only [getBestApiKey]
  split_ifs <;> rfl

theorem getBestApiKey_none_iff (pool : List ApiKeyHealth) (now : Nat) :
    (getBestApiKey pool now).2 = none ↔ getHealthyApiKeys (reprobate now pool) = [] := by
  rw [getBestApiKey_eq]
  dsimp only
  split_ifs with h1 h2
  · simp [List.isEmpty_iff.mp h1]
  · have hne : getHealthyApiKeys (reprobate now pool) ≠ [] := by
      simpa [List.isEmpty_iff] using h1
    have hkwcne : (getHealthyApiKeys (reprobate now pool)).filter
        (fun k => decide (0 < k.credits)) ≠ [] := by
      simp only [Bool.not_eq_true'] at h2
      simpa [List.isEmpty_iff] using h2
    have hsne := sortBy_ne_nil byCreditsDesc _ hkwcne
    simp [Option.map_eq_none', List.head?_eq_none_iff, hsne, hne]
  · have hne : getHealthyApiKeys (reprobate now pool) ≠ [] := by
      simpa [List.isEmpty_iff] using h1
    have hsne := sortBy_ne_nil byLastCheckedAsc _ hne
    simp [Option.map_eq_none', List.head?_eq_none_iff, hsne, hne]

theorem getBestApiKey_some (pool : List ApiKeyHealth) (now : Nat) (kk : String)
    (hres : (getBestApiKey pool now).2 = some kk) :
    ∃ hh, hh ∈ getHealthyApiKeys (reprobate now pool) ∧ hh.key = kk
      ∧ ((∃ g, g ∈ getHealthyApiKeys (reprobate now pool) ∧ 0 < g.credits) →
          0 < hh.credits ∧ ∀ g ∈ getHealthyApiKeys (reprobate now pool), g.credits ≤ hh.credits)
      ∧ ((∀ g ∈ getHealthyApiKeys (reprobate now pool), g.credits = 0) →
          ∀ g ∈ getHealthyApiKeys (reprobate now pool), hh.lastChecked ≤ g.lastChecked) := by
  rw [getBestApiKey_eq] at hres
  dsimp only at hres
  by_cases h1 : (getHealthyApiKeys (reprobate now pool)).isEmpty
  · rw [if_pos h1] at hres
    simp at hres
  rw [if_neg h1] at hres
  by_cases h2 : ((getHealthyApiKeys (reprobate now pool)).filter
      (fun k => decide (0 < k.credits))).isEmpty
  · rw [if_neg (by simp [h2])] at hres
    rcases Option.map_eq_some'.mp hres with ⟨hh, hhead, hkey⟩
    have hhH : hh ∈ getHealthyApiKeys (reprobate now pool) :=
      (mem_sortBy byLastCheckedAsc hh _).mp (head?_mem _ hh hhead)
    refine ⟨hh, hhH, hkey, ?_, ?_⟩
    · rintro ⟨g, hg, hgc⟩
      have hgkwc : g ∈ (getHealthyApiKeys (reprobate now pool)).filter
          (fun k => decide (0 < k.credits)) :=
        List.mem_filter.mpr ⟨hg, by simpa⟩
      rw [List.isEmpty_iff.mp h2] at hgkwc
      cases hgkwc
    · intro _ g hg
      have hrel := head_rel_sortBy byLastCheckedAsc byLastCheckedAsc_total byLastCheckedAsc_trans
        _ g hh hhead hg
      exact of_decide_eq_true hrel
  · rw [if_pos (by simp [h2])] at hres
    rcases Option.map_eq_some'.mp hres with ⟨hh, hhead, hkey⟩
    have hhkwc : hh ∈ (getHealthyApiKeys (reprobate now pool)).filter
        (fun k => decide (0 < k.credits)) :=
      (mem_sortBy byCreditsDesc hh _).mp (head?_mem _ hh hhead)
    rcases List.mem_filter.mp hhkwc with ⟨hhH, hhc⟩
    have hhcred : 0 < hh.credits := of_decide_eq_true hhc
    refine ⟨hh, hhH, hkey, ?_, ?_⟩
    · intro _
      refine ⟨hhcred, ?_⟩
      intro g hg
      by_cases hgc : 0 < g.credits
      · have hgkwc : g ∈ (getHealthyApiKeys (reprobate now pool)).filter
            (fun k => decide (0 < k.credits)) :=
          List.mem_filter.mpr ⟨hg, by simpa⟩
        have hrel := head_rel_sortBy byCreditsDesc byCreditsDesc_total byCreditsDesc_trans
          _ g hh hhead hgkwc
        exact of_decide_eq_true hrel
      · omega
    · intro hallz
      have := hallz hh hhH
      omega

theorem findKey_markApiKeyFailed (pool : List ApiKeyHealth) (k : String) :
    findKey (markApiKeyFailed pool k) k = (findKey pool k).map failEntry := by
  induction pool with
  | nil => rfl
  | cons h t ih =>
    have hmap : markApiKeyFailed (h :: t) k
        = (if h.key == k then failEntry h else h) :: markApiKeyFailed t k := rfl
    simp only [findKey] at ih
    cases hk : h.key == k with
    | true =>
      have hk2 : ((failEntry h).key == k) = true := hk
      simp [findKey, hmap, List.find?_cons, hk, hk2]
    | false =>
      simp [findKey, hmap, List.find?_cons, hk, ih]

theorem findKey_markApiKeySuccess (pool : List ApiKeyHealth) (k : String) (now : Nat)
    (credits : Option Nat) :
    findKey (markApiKeySuccess pool k now credits) k
      = (findKey pool k).map (successEntry now credits) := by
  induction pool with
  | nil => rfl
  | cons h t ih =>
    have hmap : markApiKeySuccess (h :: t) k now credits
        = (if h.key == k then successEntry now credits h else h)
            :: markApiKeySuccess t k now credits := rfl
    simp only [findKey] at ih
    cases hk : h.key == k with
    | true =>
      have hk2 : ((successEntry now credits h).key == k) = true := hk
      simp [findKey, hmap, List.find?_cons, hk, hk2]
    | false =>
      simp [findKey, hmap, List.find?_cons, hk, ih]

theorem findKey_iterate_failed (k : String) (n : Nat) (pool : List ApiKeyHealth) :
    findKey ((fun p => markApiKeyFailed p k)^[n] pool) k
      = (findKey pool k).map (failEntry^[n]) := by
  induction n generalizing pool with
  | zero => simp
  | succ n ih =>
    rw [Function.iterate_succ_apply, ih, findKey_markApiKeyFailed]
    cases findKey pool k with
    | none => simp
    | some h => simp [Function.iterate_succ_apply]

theorem getBestApiKey_fst (pool : List ApiKeyHealth) (now : Nat) :
    (getBestApiKey pool now).1 = reprobate now pool := by
  simp only [getBestApiKey]
  split
  · rfl
  · split <;> rfl

/-! ## Claim theorems -/

/-- Claim C6 (confirmed): during `executeWithFailover`, when the attempt on
the current credential fails with an account-billing-issue error, the loop
aborts immediately — its outcome is the same as if the remaining healthy
credentials did not exist — and the distinct account-billing-issue error is
surfaced, even when more healthy credentials remain in `rest`. -/
theorem billing_issue_aborts_failover {T : Type} (op : String → Except String T)
    (operationName : String) (kh : ApiKeyHealth) (rest pool : List ApiKeyHealth)
    (now : Nat) (lastError : Option String) (msg : String)
    (hop : op kh.key = .error msg) (hb : msgHasBilling msg = true) :
    ewfGo op operationName (kh :: rest) pool now lastError
      = ewfGo op operationName [kh] pool now lastError
    ∧ (ewfGo op operationName (kh :: rest) pool now lastError).2
      = .error "Wiza account has a billing issue. Please check your Wiza account at https://wiza.co" := by
  constructor <;> simp only [ewfGo, hop, hb, if_true]

/-- Witness for C6 at a concrete input: one billing-issue failure on the
first of two healthy credentials aborts without touching the second. -/
theorem billing_issue_aborts_failover_witness :
    ewfGo (fun _ => (Except.error "Wiza account has a billing issue" : Except String Unit))
        "reveal" (initHealth "A" 0 :: [initHealth "B" 1]) (initPool ["A", "B"]) 0 none
      = ewfGo (fun _ => (Except.error "Wiza account has a billing issue" : Except String Unit))
        "reveal" [initHealth "A" 0] (initPool ["A", "B"]) 0 none
    ∧ (ewfGo (fun _ => (Except.error "Wiza account has a billing issue" : Except String Unit))
        "reveal" (initHealth "A" 0 :: [initHealth "B" 1]) (initPool ["A", "B"]) 0 none).2
      = .error "Wiza account has a billing issue. Please check your Wiza account at https://wiza.co" :=
  billing_issue_aborts_failover
    (fun _ => (Except.error "Wiza account has a billing issue" : Except String Unit))
    "reveal" (initHealth "A" 0) [initHealth "B" 1] (initPool ["A", "B"]) 0 none
    "Wiza account has a billing issue" rfl (by decide)

/-- Claim C9 (confirmed): when no healthy credential exists (in particular
when zero credentials are configured), `executeWithFailover` — and hence the
single-item extraction `extractContactWithWiza` — fails immediately with the
no-healthy-credentials error; the result does not depend on the operation or
on the provider at all (zero network calls, no internal retry). -/
theorem no_healthy_keys_fails_immediately {T : Type} (op : String → Except String T)
    (operationName : String) (provider provider2 : String → ProviderBehavior)
    (linkedinUrl linkedinUrl2 : String) (pool : List ApiKeyHealth) (now : Nat)
    (h : getHealthyApiKeys pool = []) :
    executeWithFailover op operationName pool now
      = (pool, .error "No healthy API keys available")
    ∧ extractContactWithWiza provider linkedinUrl pool now
      = (pool, .error "No healthy API keys available")
    ∧ extractContactWithWiza provider linkedinUrl pool now
      = extractContactWithWiza provider2 linkedinUrl2 pool now := by
  refine ⟨?_, ?_, ?_⟩ <;> simp [extractContactWithWiza, executeWithFailover, h]

/-- Witness for C9 at the concrete empty pool (zero credentials configured),
with two arbitrary distinct provider behaviors. -/
theorem no_healthy_keys_fails_immediately_witness :
    executeWithFailover (fun _ => (Except.error "x" : Except String Unit)) "op" (initPool []) 3
      = (initPool [], .error "No healthy API keys available")
    ∧ extractContactWithWiza (fun _ => ProviderBehavior.timeout) "u" (initPool []) 3
      = (initPool [], .error "No healthy API keys available")
    ∧ extractContactWithWiza (fun _ => ProviderBehavior.timeout) "u" (initPool []) 3
      = extractContactWithWiza (fun _ => ProviderBehavior.createError 500 false false "boom") "v"
          (initPool []) 3 :=
  no_healthy_keys_fails_immediately (fun _ => (Except.error "x" : Except String Unit)) "op"
    (fun _ => ProviderBehavior.timeout)
    (fun _ => ProviderBehavior.createError 500 false false "boom") "u" "v" (initPool []) 3 rfl

/-- Claim C8 (confirmed): starting from an entry with a zeroed failure
counter, exactly `MAX_CONSECUTIVE_FAILURES` (3) consecutive
`markApiKeyFailed` calls with no intervening success make the credential
unhealthy; with fewer than 3 the health flag is untouched and the counter
matches the number of failures; and a single `markApiKeySuccess` resets the
counter to 0 and forces `isHealthy` back to true from any state. -/
theorem failure_threshold_and_success_reset (pool pool2 : List ApiKeyHealth) (k : String)
    (h h2 : ApiKeyHealth) (now : Nat) (credits : Option Nat)
    (hfind : findKey pool k = some h) (h0 : h.consecutiveFailures = 0)
    (hfind2 : findKey pool2 k = some h2) :
    ((findKey ((fun p => markApiKeyFailed p k)^[MAX_CONSECUTIVE_FAILURES] pool) k).map
        (fun g => (g.isHealthy, g.consecutiveFailures))
      = some (false, MAX_CONSECUTIVE_FAILURES))
    ∧ (∀ n, n < MAX_CONSECUTIVE_FAILURES →
        (findKey ((fun p => markApiKeyFailed p k)^[n] pool) k).map
            (fun g => (g.isHealthy, g.consecutiveFailures))
          = some (h.isHealthy, n))
    ∧ ((findKey (markApiKeySuccess pool2 k now credits) k).map
        (fun g => (g.isHealthy, g.consecutiveFailures)) = some (true, 0)) := by
  refine ⟨?_, ?_, ?_⟩
  · rw [findKey_iterate_failed, hfind, Option.map_some']
    rw [show MAX_CONSECUTIVE_FAILURES = 2 + 1 from rfl, Function.iterate_succ_apply',
      show (2 : Nat) = 1 + 1 from rfl, Function.iterate_succ_apply', Function.iterate_one]
    simp [failEntry, h0, MAX_CONSECUTIVE_FAILURES]
  · intro n hn
    rw [findKey_iterate_failed, hfind, Option.map_some']
    have hn3 : n < 3 := hn
    interval_cases n
    · simp [h0]
    · rw [Function.iterate_one]
      simp [failEntry, h0, MAX_CONSECUTIVE_FAILURES]
    · rw [show (2 : Nat) = 1 + 1 from rfl, Function.iterate_succ_apply', Function.iterate_one]
      simp [failEntry, h0, MAX_CONSECUTIVE_FAILURES]
  · rw [findKey_markApiKeySuccess, hfind2, Option.map_some']
    simp [successEntry]

/-- Witness for C8 at a concrete one-credential pool: three failures turn
the key unhealthy, two leave it healthy with counter 2, and one success
resets to a healthy zero counter. -/
theorem failure_threshold_and_success_reset_witness :
    ((findKey ((fun p => markApiKeyFailed p "A")^[MAX_CONSECUTIVE_FAILURES] (initPool ["A"])) "A").map
        (fun g => (g.isHealthy, g.consecutiveFailures))
      = some (false, MAX_CONSECUTIVE_FAILURES))
    ∧ ((findKey ((fun p => markApiKeyFailed p "A")^[2] (initPool ["A"])) "A").map
        (fun g => (g.isHealthy, g.consecutiveFailures))
      = some ((initHealth "A" 0).isHealthy, 2))
    ∧ ((findKey (markApiKeySuccess (initPool ["A"]) "A" 9 (some 5)) "A").map
        (fun g => (g.isHealthy, g.consecutiveFailures)) = some (true, 0)) :=
  have hc := failure_threshold_and_success_reset (initPool ["A"]) (initPool ["A"]) "A"
    (initHealth "A" 0) (initHealth "A" 0) 9 (some 5) rfl rfl rfl
  ⟨hc.1, hc.2.1 2 (by decide), hc.2.2⟩

/-- Claim C10 (confirmed): every health-map operation — initialization,
`markApiKeyFailed`, `markApiKeySuccess`, and the re-probation pass inside
`getBestApiKey` — maintains the invariant that an unhealthy credential has
at least `MAX_CONSECUTIVE_FAILURES` recorded consecutive failures. -/
theorem unhealthy_needs_threshold_failures (keys : List String)
    (pool2 pool3 pool4 : List ApiKeyHealth) (k k2 : String) (now now2 : Nat)
    (credits : Option Nat)
    (h2 : healthInvariant pool2) (h3 : healthInvariant pool3) (h4 : healthInvariant pool4) :
    healthInvariant (initPool keys)
    ∧ healthInvariant (markApiKeyFailed pool2 k)
    ∧ healthInvariant (markApiKeySuccess pool3 k2 now credits)
    ∧ healthInvariant ((getBestApiKey pool4 now2).1) := by
  refine ⟨?_, ?_, ?_, ?_⟩
  · intro g hg hfalse
    rcases List.mem_map.mp hg with ⟨p, _, rfl⟩
    simp [initHealth] at hfalse
  · intro g hg hfalse
    rcases List.mem_map.mp hg with ⟨a, ha, rfl⟩
    by_cases hk : (a.key == k) = true
    · rw [if_pos hk] at hfalse ⊢
      by_cases hle : MAX_CONSECUTIVE_FAILURES ≤ a.consecutiveFailures + 1
      · simpa [failEntry] using hle
      · have hah : a.isHealthy = false := by simpa [failEntry, hle] using hfalse
        have := h2 a ha hah
        simp only [failEntry]
        omega
    · rw [if_neg hk] at hfalse ⊢
      exact h2 a ha hfalse
  · intro g hg hfalse
    rcases List.mem_map.mp hg with ⟨a, ha, rfl⟩
    by_cases hk : (a.key == k2) = true
    · rw [if_pos hk] at hfalse
      simp [successEntry] at hfalse
    · rw [if_neg hk] at hfalse ⊢
      exact h3 a ha hfalse
  · intro g hg hfalse
    rw [getBestApiKey_fst] at hg
    rcases List.mem_map.mp hg with ⟨a, ha, rfl⟩
    by_cases hk : shouldRecheckApiKey now2 a = true
    · rw [if_pos hk] at hfalse
      simp at hfalse
    · rw [if_neg hk] at hfalse ⊢
      exact h4 a ha hfalse

/-- Claim C7 (confirmed): when a worker's attempt on an item fails with a
rate-limit error (message containing `429` or, lowercased, `rate limit`),
the worker records a cooldown of `RATE_LIMIT_COOLDOWN_MS` on its credential
and pushes the item to the back of the queue; the health map, the result
map and the completed count are untouched (no failure is counted against
credential health, and the item is not counted completed). -/
theorem rate_limited_cooldown_requeue {T : Type} (op : String → String → Except String T)
    (apiKey url : String) (rest : List String) (s : ParState T) (msg : String)
    (hcd : (getAssoc s.cooldowns apiKey).getD 0 ≤ s.now)
    (hq : s.urlQueue = url :: rest) (hurl : (url == "") = false)
    (hop : op url apiKey = .error msg)
    (hrl : (strIncludes msg "429" || strIncludes (jsToLower msg) "rate limit") = true) :
    workerStep op apiKey s = some { s with
      urlQueue := rest ++ [url]
      cooldowns := setAssoc s.cooldowns apiKey (s.now + RATE_LIMIT_COOLDOWN_MS) } := by
  simp [workerStep, hq, hurl, hop, hrl, Nat.not_lt.mpr hcd]

/-- Witness for C7 at a concrete input: a 429 failure on key "A" sets its
cooldown and requeues the URL without touching pool, results or progress. -/
theorem rate_limited_cooldown_requeue_witness :
    workerStep rlOp "A" wsState = some { wsState with
      urlQueue := [] ++ ["u"]
      cooldowns := setAssoc wsState.cooldowns "A" (wsState.now + RATE_LIMIT_COOLDOWN_MS) } :=
  rate_limited_cooldown_requeue rlOp "A" "u" [] wsState "429"
    (by decide) rfl (by decide) rfl (by decide)

/-- Claim C1, counterexample: a bulk call with one valid input URL and one
credential whose create calls always report 402/credits ends with an empty
result map — no failure entry is recorded for the item — even though the
item is counted completed (progress fired once) and the call returns
normally.  This refutes the claim that the returned map contains exactly
one entry per input item. -/
theorem bulk_result_map_omits_exhausted_item :
    (extractContactsInParallel 10 alwaysOutOfCredits ["https://linkedin.com/in/u"]
        (initPool ["A"]) [] 1000).toOption.map
        (fun p => (p.1, p.2.completedCount, p.2.progressEvents)) = some ([], 1, [(1, 1)])
    ∧ (extractContactsInParallel 10 alwaysOutOfCredits ["https://linkedin.com/in/u"]
        (initPool ["A"]) [] 1000).toOption.bind
        (fun p => getAssoc p.1 "https://linkedin.com/in/u") = none := by
  decide

/-- Claim C1 as amended: when a worker's attempt on an item fails (not
rate-limited) and no healthy credential remains, the item is counted as
completed (progress fires) and the worker continues with the rest of the
queue instead of aborting — but no failure result is recorded for the item:
the result map is left unchanged and the item is dropped from it. -/
theorem exhausted_pool_drops_result_entry {T : Type} (op : String → String → Except String T)
    (apiKey url : String) (rest : List String) (s : ParState T) (msg : String)
    (hcd : (getAssoc s.cooldowns apiKey).getD 0 ≤ s.now)
    (hq : s.urlQueue = url :: rest) (hurl : (url == "") = false)
    (hop : op url apiKey = .error msg)
    (hrl : (strIncludes msg "429" || strIncludes (jsToLower msg) "rate limit") = false)
    (hnoheal : getHealthyApiKeys
        (if strIncludes msg "out of credits" || strIncludes msg "402" then
          markApiKeyFailed s.pool apiKey else s.pool) = []) :
    workerStep op apiKey s = some { s with
      urlQueue := rest
      pool := if strIncludes msg "out of credits" || strIncludes msg "402" then
          markApiKeyFailed s.pool apiKey else s.pool
      completedCount := s.completedCount + 1
      progressEvents := s.progressEvents ++ [(s.completedCount + 1, s.totalCount)] } := by
  have hnh : getHealthyApiKeys
      (if strIncludes msg "out of credits" = true ∨ strIncludes msg "402" = true then
        markApiKeyFailed s.pool apiKey else s.pool) = [] := by
    simpa using hnoheal
  simp [workerStep, hq, hurl, hop, hrl, Nat.not_lt.mpr hcd, hnh]

/-- Witness for the amended C1 at a concrete input: an out-of-credits
failure on the last healthy key advances progress and drops the item while
the results field stays untouched. -/
theorem exhausted_pool_drops_result_entry_witness :
    workerStep creditsOp "A" exhaustedState = some { exhaustedState with
      urlQueue := []
      pool := if strIncludes "API key out of credits" "out of credits" ||
          strIncludes "API key out of credits" "402" then
          markApiKeyFailed exhaustedState.pool "A" else exhaustedState.pool
      completedCount := exhaustedState.completedCount + 1
      progressEvents := exhaustedState.progressEvents
        ++ [(exhaustedState.completedCount + 1, exhaustedState.totalCount)] } :=
  exhausted_pool_drops_result_entry creditsOp "A" "u" [] exhaustedState
    "API key out of credits" (by decide) rfl (by decide) rfl (by decide) (by decide)

/-- Claim C2, counterexample: in a bulk call, an item whose job terminates
flagged `failed` with reason `billing_issue` while the payload carries a
populated `phone_number` (and name) is recorded with `success = false` —
the failure flag is propagated, refuting the claimed `success == true`. -/
theorem bulk_billing_issue_with_data_counterexample :
    (extractContactsInParallel 10 billingIssueWithPhone ["https://linkedin.com/in/bob"]
        (initPool ["A"]) [] 1000).toOption.bind
        (fun p => getAssoc p.1 "https://linkedin.com/in/bob")
      = some { success := false, error := some "Reveal failed: billing_issue" }
    ∧ ((extractContactsInParallel 10 billingIssueWithPhone ["https://linkedin.com/in/bob"]
        (initPool ["A"]) [] 1000).toOption.bind
        (fun p => getAssoc p.1 "https://linkedin.com/in/bob")).map
        (fun r => r.success) ≠ some true := by
  decide

/-- Claim C2 as amended: in the bulk-extraction path a job that reaches a
terminal `failed` status yields a `success = false` result regardless of
the payload's contact data; the billing-issue-with-data grace (treating
the job as successfully complete) exists only in the single-item path
(`handleRevealTerminal`), where a complete job flagged `failed` with
reason `billing_issue` and any of email/phone_number/mobile_phone/name/
full_name populated yields `success = true`. -/
theorem bulk_failed_status_never_success (provider : String → String → BulkBehavior)
    (provider2 : String → ProviderBehavior) (url apiKey url2 apiKey2 : String)
    (d d2 : RevealStatusData)
    (hp : provider url apiKey = BulkBehavior.terminal d)
    (hd : d.status = "failed")
    (hp2 : provider2 apiKey2 = ProviderBehavior.terminal d2)
    (h2c : d2.is_complete = true) (h2s : d2.status = "failed")
    (h2b : d2.fail_error = "billing_issue")
    (h2data : (d2.email != "" || d2.phone_number != "" || d2.mobile_phone != "" ||
        d2.name != "" || d2.full_name != "") = true) :
    bulkRevealOp provider url apiKey
      = .ok { success := false, contact := none,
              error := some ("Reveal failed: " ++ jsOr d.error "Unknown error") }
    ∧ singleRevealOp provider2 url2 apiKey2
      = .ok { success := true, contact := some (normalizeSingleContact url2 d2),
              error := none } := by
  constructor
  · simp [bulkRevealOp, hp, hd]
  · have hfe : jsOr d2.fail_error "Unknown error" = "billing_issue" := by simp [jsOr, h2b]
    simp [singleRevealOp, hp2, h2c, handleRevealTerminal, h2s, hfe, h2data]

/-- Witness for the amended C2 at the concrete billing-issue payload:
the bulk path records failure, the single-item path records success. -/
theorem bulk_failed_status_never_success_witness :
    bulkRevealOp billingIssueWithPhone "u" "A"
      = .ok { success := false, contact := none,
              error := some ("Reveal failed: " ++ jsOr billingIssueData.error "Unknown error") }
    ∧ singleRevealOp billingIssueSingle "u" "A"
      = .ok { success := true, contact := some (normalizeSingleContact "u" billingIssueData),
              error := none } :=
  bulk_failed_status_never_success billingIssueWithPhone billingIssueSingle "u" "A" "u" "A"
    billingIssueData billingIssueData rfl rfl rfl rfl rfl rfl (by decide)

/-- Claim C3, counterexample: in the two-credential scenario (credA always
402/"quota", credB succeeding with name "X" and email "x@example.com"),
the extraction succeeds with that data, but afterwards credA's
`consecutiveFailures` is 2, not 1: the failover loop counts a quota error
twice (`markApiKeyFailed` at wiza.ts line 148 and again at line 157). -/
theorem quota_failover_double_count_counterexample :
    (extractContactWithWiza quotaThenSuccess "https://linkedin.com/in/x"
        (initPool ["A", "B"]) 1000).2
      = .ok { success := true
              contact := some { linkedinUrl := "https://linkedin.com/in/x", name := "X",
                                email := "x@example.com", phone := "",
                                emails := ["x@example.com"], phones := [], jobTitle := "",
                                company := "", location := "" } }
    ∧ (findKey (extractContactWithWiza quotaThenSuccess "https://linkedin.com/in/x"
        (initPool ["A", "B"]) 1000).1 "A").map
        (fun h => h.consecutiveFailures) ≠ some 1 := by
  decide

/-- Claim C3 as amended: the scenario returns the success result with
credB's data, and afterwards credA has `consecutiveFailures = 2` (the
quota error is double-counted) while remaining healthy (2 is below the
threshold of 3); credB is healthy with a zeroed counter and a fresh
`lastChecked` stamp. -/
theorem quota_failover_double_failure_count :
    (extractContactWithWiza quotaThenSuccess "https://linkedin.com/in/x"
        (initPool ["A", "B"]) 1000).2
      = .ok { success := true
              contact := some { linkedinUrl := "https://linkedin.com/in/x", name := "X",
                                email := "x@example.com", phone := "",
                                emails := ["x@example.com"], phones := [], jobTitle := "",
                                company := "", location := "" } }
    ∧ (findKey (extractContactWithWiza quotaThenSuccess "https://linkedin.com/in/x"
        (initPool ["A", "B"]) 1000).1 "A").map
        (fun h => (h.isHealthy, h.consecutiveFailures)) = some (true, 2)
    ∧ (findKey (extractContactWithWiza quotaThenSuccess "https://linkedin.com/in/x"
        (initPool ["A", "B"]) 1000).1 "B").map
        (fun h => (h.isHealthy, h.consecutiveFailures, h.lastChecked)) = some (true, 0, 1000) := by
  decide

/-- Witness for C10 at a concrete pool. -/
theorem unhealthy_needs_threshold_failures_witness :
    healthInvariant (initPool ["A", "B"])
    ∧ healthInvariant (markApiKeyFailed (initPool ["A"]) "A")
    ∧ healthInvariant (markApiKeySuccess (initPool ["A"]) "A" 9 (some 5))
    ∧ healthInvariant ((getBestApiKey (initPool ["A"]) 7).1) :=
  unhealthy_needs_threshold_failures ["A", "B"] (initPool ["A"]) (initPool ["A"])
    (initPool ["A"]) "A" "A" 9 7 (some 5)
    (by simp [healthInvariant, initPool, initHealth])
    (by simp [healthInvariant, initPool, initHealth])
    (by simp [healthInvariant, initPool, initHealth])

/-- Claim C4, counterexample: right after `setCooldown` records a cooldown
for "A" (until 11000, clock at 1000, so the window is active), the
selection function `getBestApiKey` still returns "A" — the source's
selection consults only the health map and never the cooldown map, so a
credential in cooldown is not ineligible for selection. -/
theorem selection_ignores_cooldown_counterexample :
    (getAssoc (setCooldown [] "A" 1000 10000) "A").getD 0 = 11000
    ∧ 1000 < (getAssoc (setCooldown [] "A" 1000 10000) "A").getD 0
    ∧ (getBestApiKey (initPool ["A"]) 1000).2 = some "A" := by
  decide

/-- Claim C4 as amended: `setCooldown(c, d)` records `cooldownUntil =
now + d` for the credential without touching the health map (so
`isHealthy` is unchanged), and while the window is open the dispatcher
workers skip the credential — a worker only sleeps, leaving queue,
results, pool and progress untouched, and never invokes the operation.
`getBestApiKey`, however, does not exclude cooled-down credentials: it
selects among the healthy candidates (after re-probation) alone, returns
`none` exactly when none is healthy, prefers the highest cached credit
balance, and falls back to least-recently-used when no candidate carries
credit information. -/
theorem cooldown_skips_dispatch_not_selection {T : Type}
    (op op2 : String → String → Except String T) (cooldowns : List (String × Nat))
    (k kk : String) (now d : Nat) (s : ParState T) (pool2 : List ApiKeyHealth) (now2 : Nat)
    (hcd : s.now < (getAssoc s.cooldowns k).getD 0) :
    getAssoc (setCooldown cooldowns k now d) k = some (now + d)
    ∧ workerStep op k s
        = some { s with now := s.now + min 1000 ((getAssoc s.cooldowns k).getD 0 - s.now) }
    ∧ workerStep op k s = workerStep op2 k s
    ∧ ((getBestApiKey pool2 now2).2 = none ↔ getHealthyApiKeys (reprobate now2 pool2) = [])
    ∧ ((getBestApiKey pool2 now2).2 = some kk →
        ∃ hh, hh ∈ getHealthyApiKeys (reprobate now2 pool2) ∧ hh.key = kk
          ∧ ((∃ g, g ∈ getHealthyApiKeys (reprobate now2 pool2) ∧ 0 < g.credits) →
              0 < hh.credits
                ∧ ∀ g ∈ getHealthyApiKeys (reprobate now2 pool2), g.credits ≤ hh.credits)
          ∧ ((∀ g ∈ getHealthyApiKeys (reprobate now2 pool2), g.credits = 0) →
              ∀ g ∈ getHealthyApiKeys (reprobate now2 pool2),
                hh.lastChecked ≤ g.lastChecked)) := by
  refine ⟨getAssoc_setAssoc cooldowns k (now + d), ?_, ?_,
    getBestApiKey_none_iff pool2 now2, getBestApiKey_some pool2 now2 kk⟩
  · simp [workerStep, hcd]
  · simp [workerStep, hcd]

/-- Witness for the amended C4 at a concrete cooled-down state: the
cooldown is recorded, the worker only sleeps (for any operation), and the
selection outcome over a one-key healthy pool is characterized. -/
theorem cooldown_skips_dispatch_not_selection_witness :
    getAssoc (setCooldown [] "A" 1000 10000) "A" = some (1000 + 10000)
    ∧ workerStep rlOp "A" cdState
        = some { cdState with
            now := cdState.now + min 1000 ((getAssoc cdState.cooldowns "A").getD 0 - cdState.now) }
    ∧ workerStep rlOp "A" cdState = workerStep creditsOp "A" cdState
    ∧ ((getBestApiKey (initPool ["A"]) 1000).2 = none
        ↔ getHealthyApiKeys (reprobate 1000 (initPool ["A"])) = []) :=
  have hc := cooldown_skips_dispatch_not_selection rlOp creditsOp [] "A" "A" 1000 10000
    cdState (initPool ["A"]) 1000 (by decide)
  ⟨hc.1, hc.2.1, hc.2.2.1, hc.2.2.2.1⟩

/-- Claim C5, counterexample: `getHealthyApiKeys` neither re-probates
stale unhealthy credentials nor excludes credentials in active cooldown,
so it differs from the spec's `healthyCandidates()` description
(`healthyCandidatesSpec`) in both directions: a stale unhealthy
credential stays excluded, and a healthy credential inside a cooldown
window stays included. -/
theorem healthy_candidates_divergence_counterexample :
    getHealthyApiKeys staleUnhealthyPool ≠ healthyCandidatesSpec staleUnhealthyPool [] 10000000
    ∧ getHealthyApiKeys staleUnhealthyPool = []
    ∧ healthyCandidatesSpec staleUnhealthyPool [] 10000000
      = [{ staleEntry with isHealthy := true, consecutiveFailures := 0 }]
    ∧ getHealthyApiKeys (initPool ["B"]) = initPool ["B"]
    ∧ healthyCandidatesSpec (initPool ["B"]) (setCooldown [] "B" 100 10000) 200 = [] := by
  decide

/-- Claim C5 as amended: `getHealthyApiKeys` returns exactly the
credentials with `isHealthy == true` — cooldowns are not consulted and no
re-probation happens inside it; the re-probation of a stale unhealthy
credential (last check older than `HEALTH_CHECK_INTERVAL`) is performed
separately by `getBestApiKey`, after which that credential appears among
the healthy keys with `isHealthy = true` and a zeroed failure counter. -/
theorem healthy_keys_filter_only (pool : List ApiKeyHealth) (g h : ApiKeyHealth) (now : Nat)
    (hg : g ∈ pool) (hghealth : g.isHealthy = false)
    (hstale : HEALTH_CHECK_INTERVAL < now - g.lastChecked) :
    (h ∈ getHealthyApiKeys pool ↔ h ∈ pool ∧ h.isHealthy = true)
    ∧ { g with isHealthy := true, consecutiveFailures := 0 }
        ∈ getHealthyApiKeys (getBestApiKey pool now).1 := by
  constructor
  · simp [getHealthyApiKeys, List.mem_filter]
  · rw [getBestApiKey_fst]
    have hrc : shouldRecheckApiKey now g = true := by
      simp [shouldRecheckApiKey, hghealth, hstale]
    have hmem : ({ g with isHealthy := true, consecutiveFailures := 0 } : ApiKeyHealth)
        ∈ reprobate now pool := by
      apply List.mem_map.mpr
      exact ⟨g, hg, by rw [if_pos hrc]⟩
    simp [getHealthyApiKeys, List.mem_filter, hmem]

/-- Witness for the amended C5 at the concrete stale pool: the membership
characterization for a sample entry, and the stale entry resurfacing among
the healthy keys after `getBestApiKey` re-probates it. -/
theorem healthy_keys_filter_only_witness :
    (initHealth "B" 0 ∈ getHealthyApiKeys staleUnhealthyPool
      ↔ initHealth "B" 0 ∈ staleUnhealthyPool ∧ (initHealth "B" 0).isHealthy = true)
    ∧ { staleEntry with isHealthy := true, consecutiveFailures := 0 }
        ∈ getHealthyApiKeys (getBestApiKey staleUnhealthyPool 10000000).1 :=
  healthy_keys_filter_only staleUnhealthyPool staleEntry (initHealth "B" 0) 10000000
    (by decide) rfl (by decide)

end Wiza
